import Mathlib

/-
Verification of the NL2Q orchestration core: a shallow embedding of
`backend/agents/openai_vector_matcher.py` (embedding cache, cosine-similarity
index) and `backend/orchestrators/dynamic_agent_orchestrator.py` (task graph,
execution engine, indexing-completeness check), with theorems settling the
frozen specification claims.

Conventions: Python floats are modelled as real numbers (`ℝ`) where square
roots occur (cosine similarity) and as rationals (`ℚ`) where only field
arithmetic and comparisons occur; machine dictionaries are modelled as
association lists in insertion order (Python dicts iterate in insertion
order); Python exceptions are modelled with `Except String`; functions whose
Python source can raise return `Except`.
-/

/-! ## Vector matcher: vectors and cosine similarity
Embeds `OpenAIVectorMatcher._cosine_similarity` (openai_vector_matcher.py
lines 386-390).  `np.linalg.norm` is the Euclidean norm, i.e. the square root
of the dot product with itself. -/

/-- A vector, as produced by the embedding provider (np arrays of floats). -/
abbrev Vec := List ℝ

/-- Dot product of two vectors, `np.dot` on equal-length 1-d arrays. -/
def dot (a b : Vec) : ℝ := (List.zipWith (· * ·) a b).sum

/-- Euclidean norm, `np.linalg.norm(a)` = sqrt of the sum of squares. -/
noncomputable def nrm (a : Vec) : ℝ := Real.sqrt (dot a a)

/-- Embeds `_cosine_similarity` (lines 386-390): returns 0.0 when either
operand has zero norm, otherwise the dot product divided by the product of
the norms. -/
noncomputable def cosineSimilarity (a b : Vec) : ℝ :=
  if nrm a = 0 ∨ nrm b = 0 then 0 else dot a b / (nrm a * nrm b)

/-- Embeds `_similarity_to_confidence` (lines 478-481):
`max(0.0, min(1.0, similarity))`. -/
noncomputable def similarityToConfidence (s : ℝ) : ℝ := max 0 (min 1 s)

/-! ## Vector matcher: table and column search
Embeds `find_similar_tables` (lines 392-418) and `find_relevant_columns`
(lines 420-453).  Both first return `[]` on an empty index, then obtain the
query embedding through `self._get_embeddings` — abstracted here as the
parameter `getEmb` — and return `[]` if that call yields an empty list.
`self.table_embeddings` / `self.column_embeddings` are Python dicts, modelled
as association lists in insertion order.  `list.sort(key=..., reverse=True)`
is a stable descending sort, modelled by `List.mergeSort` (stable) with the
comparison `y.similarity_score ≤ x.similarity_score`. -/

/-- One entry of the `find_similar_tables` result list (lines 409-414). -/
structure TableMatch where
  table_name : String
  similarity_score : ℝ
  matchType : String
  confidence : ℝ

/-- One entry of the `find_relevant_columns` result list (lines 444-449). -/
structure ColumnMatch where
  column_name : String
  table_name : String
  similarity_score : ℝ
  confidence : ℝ

/-- Embeds `find_similar_tables` (lines 392-418).  `getEmb` abstracts
`self._get_embeddings`; `tableEmb` is `self.table_embeddings` in insertion
order. -/
noncomputable def findSimilarTables (tableEmb : List (String × Vec))
    (getEmb : List String → Except String (List Vec))
    (query : String) (top_k : ℕ) (threshold : ℝ) :
    Except String (List TableMatch) :=
  if tableEmb = [] then .ok []
  else
    match getEmb [query] with
    | .error e => .error e
    | .ok [] => .ok []
    | .ok (q :: _) =>
      let sims := tableEmb.filterMap fun nv =>
        let s := cosineSimilarity q nv.2
        if threshold ≤ s then
          some ⟨nv.1, s, "vector_semantic", similarityToConfidence s⟩
        else none
      .ok ((sims.mergeSort fun x y =>
        decide (y.similarity_score ≤ x.similarity_score)).take top_k)

/-- Character-level split at the first dot: the prefix before it and the
remainder after it (the whole input and `""` when no dot occurs). -/
def splitCharsAtDot : List Char → List Char × List Char
  | [] => ([], [])
  | c :: cs =>
    if c = '.' then ([], cs)
    else
      let p := splitCharsAtDot cs
      (c :: p.1, p.2)

/-- Embeds `col_key.split(".", 1)` at line 442: split a `"table.column"` key
at the first dot.  (For a key with no dot the Python unpacking would raise
`ValueError`; keys built by `initialize_from_database` always contain a
dot, so that branch is unreachable and the model totalizes it.) -/
def splitKey (k : String) : String × String :=
  let p := splitCharsAtDot k.toList
  (String.mk p.1, String.mk p.2)

/-- Embeds lines 433-436: when a (truthy, i.e. non-empty) table name is
given, restrict to the column keys starting with `table_name + "."`. -/
def scopedColumns (colEmb : List (String × Vec)) (tableName : Option String) :
    List (String × Vec) :=
  match tableName with
  | none => colEmb
  | some t =>
    if t.isEmpty then colEmb
    else colEmb.filter fun kv => (t ++ ".").isPrefixOf kv.1

/-- Embeds `find_relevant_columns` (lines 420-453).  Unlike the table search
there is no similarity threshold: every column in scope contributes one
entry to the candidate list. -/
noncomputable def findRelevantColumns (colEmb : List (String × Vec))
    (getEmb : List String → Except String (List Vec))
    (query : String) (tableName : Option String) (top_k : ℕ) :
    Except String (List ColumnMatch) :=
  if colEmb = [] then .ok []
  else
    match getEmb [query] with
    | .error e => .error e
    | .ok [] => .ok []
    | .ok (q :: _) =>
      let sims := (scopedColumns colEmb tableName).map fun kv =>
        let s := cosineSimilarity q kv.2
        let tc := splitKey kv.1
        ColumnMatch.mk tc.2 tc.1 s (similarityToConfidence s)
      .ok ((sims.mergeSort fun x y =>
        decide (y.similarity_score ≤ x.similarity_score)).take top_k)

/-! ## Vector matcher: embedding fetch `_get_embeddings` (lines 103-172)
The function returns zero vectors when no API key is configured, or when the
validated text list is empty.  Otherwise it processes the texts in batches.
Inside the loop the local name `embeddings` is used (`embeddings.extend(...)`
at line 163 and line 170) but is never initialized anywhere in the function,
so the first batch iteration raises `NameError`: on the try path line 163
raises it, the `except Exception` at line 165 catches it, and then line 170
raises it again, this time uncaught; on a provider failure the except block
is entered directly and line 170 raises it uncaught.  Either way the first
iteration aborts the whole call, so later batches are unreachable. -/

/-- The 1536-dimensional zero vector used as degraded output
(`np.zeros(1536)`, lines 107, 119, 170). -/
def zeroVec : Vec := List.replicate 1536 0

/-- Input validation of lines 110-115: blank or empty texts are replaced by
the placeholder `"empty text"`, others are trimmed. -/
def validateText (t : String) : String :=
  if t.trim = "" then "empty text" else t.trim

/-- Dynamic batch sizing, lines 122-131. -/
def batchSize (n : ℕ) : ℕ :=
  if n < 100 then 20
  else if n < 500 then 30
  else if n < 1000 then 40
  else if n < 3000 then 50
  else 75

/-- The message of the `NameError` raised because the accumulator name
`embeddings` is never bound in `_get_embeddings`. -/
def nameErrorMsg : String := "NameError: name embeddings is not defined"

/-- One iteration of the batch loop (lines 137-170).  Whether the provider
call succeeds (line 156) or raises (caught at line 165), the iteration ends
in an uncaught `NameError` from `embeddings.extend`, because `embeddings`
was never initialized. -/
def batchStep (provider : List String → Except String (List Vec))
    (batch : List String) : Except String (List Vec) :=
  match provider batch with
  | .ok _ => .error nameErrorMsg
  | .error _ => .error nameErrorMsg

/-- Embeds `_get_embeddings` (lines 103-172).  `apiKey` is
`self.api_key` (Python falsiness: a missing or empty key takes the degraded
zero-vector path of lines 105-107); `provider` abstracts the OpenAI
embeddings call for one batch.  With a non-empty API key and a non-empty
text list, the first batch is processed by `batchStep`, which always raises,
so the remaining batches are never reached. -/
def getEmbeddings (apiKey : Option String)
    (provider : List String → Except String (List Vec))
    (texts : List String) : Except String (List Vec) :=
  match apiKey with
  | none => .ok (texts.map fun _ => zeroVec)
  | some k =>
    if k = "" then .ok (texts.map fun _ => zeroVec)
    else
      let valid := texts.map validateText
      if valid = [] then .ok (texts.map fun _ => zeroVec)
      else batchStep provider (valid.take (batchSize valid.length))

/-! ## Vector matcher: cache freshness `_load_cached_embeddings` (lines 483-512)
The function returns `False` when either cache file is missing, when loading
raises, or when the metadata timestamp fails the staleness check at line
496: `(datetime.now() - cache_time).days > 1`.  `timedelta.days` is the
floor of the elapsed seconds divided by 86400, modelled by `Int.fdiv`.
Otherwise it loads the pickled data and returns whether the loaded
`table_embeddings` dict is non-empty. -/

/-- The observable state of the on-disk cache, as consumed by
`_load_cached_embeddings`: file existence, the parsed `created_at`
timestamp (seconds), and the sizes of the pickled lookup tables. -/
structure CacheState where
  embFileExists : Bool
  metaFileExists : Bool
  createdAt : ℤ
  tableCount : ℕ
  columnCount : ℕ

/-- Embeds `_load_cached_embeddings` (lines 483-512); `now` is
`datetime.now()` in seconds. -/
def loadCachedEmbeddings (now : ℤ) (c : CacheState) : Bool :=
  if ¬(c.embFileExists ∧ c.metaFileExists) then false
  else if (now - c.createdAt).fdiv 86400 > 1 then false
  else decide (0 < c.tableCount)

/-! ## Vector matcher: table selection in `initialize_from_database`
(lines 174-232).  For catalogs of more than 50 tables, lines 199-226 build a
prioritized list (explicit `important_tables` first, otherwise tables whose
lowercased name contains one of the importance patterns) and then truncate
it to `max_tables`.  However, line 232
(`tables = self._get_all_tables(adapter)`) immediately re-fetches the full
catalog into the same variable, discarding the prioritized, truncated list:
the schema items actually built and embedded afterwards come from the full
catalog, in catalog order. -/

/-- Substring test used for `pattern in table.lower()`:  `pat` occurs in `s`
iff splitting on it yields more than one part (for non-empty `pat`). -/
def containsSub (s pat : String) : Bool := decide (1 < (s.splitOn pat).length)

/-- The importance name patterns of line 209. -/
def importantPatterns : List String :=
  ["main", "core", "primary", "fact", "dim", "lookup", "ref", "analytics", "azure"]

/-- The prioritized, truncated table list computed by lines 199-226 (before
it is discarded by line 232).  `important` is the optional
`important_tables` argument, `maxTables` the optional `max_tables`
argument; Python truthiness makes `max_tables=0` behave like `None`. -/
def prioritizedTables (allTables : List String) (important : Option (List String))
    (maxTables : Option ℕ) : List String :=
  if 50 < allTables.length then
    let tables :=
      match important with
      | some imp =>
        (imp.filter fun t => decide (t ∈ allTables)) ++
          (allTables.filter fun t => decide (t ∉ imp))
      | none =>
        (allTables.filter fun t =>
            importantPatterns.any fun pat => containsSub t.toLower pat) ++
          (allTables.filter fun t =>
            ¬ importantPatterns.any fun pat => containsSub t.toLower pat)
    match maxTables with
    | some m => if 0 < m ∧ m < tables.length then tables.take m else tables
    | none => tables
  else allTables

/-- The table list actually processed into schema items by
`initialize_from_database`: line 232 re-fetches the full catalog, so the
prioritized list is computed (first binding, lines 199-226) and then
overwritten with `all_tables`. -/
def processedTables (allTables : List String) (important : Option (List String))
    (maxTables : Option ℕ) : List String :=
  let tables := prioritizedTables allTables important maxTables
  let tables := allTables
  tables

/-! ## Orchestrator: task model (dynamic_agent_orchestrator.py)
`TaskType` is the enum of lines 24-32.  `AgentTask` (lines 34-42) also
carries `input_data`, `required_output` and `constraints` payload mappings;
those are opaque to the scheduler (only `task_id`, `task_type` and
`dependencies` drive it), so the embedding keeps the three scheduler-relevant
fields. -/

inductive TaskType where
  | schema_discovery
  | semantic_understanding
  | similarity_matching
  | query_generation
  | validation
  | execution
  | visualization
  | user_interaction
deriving DecidableEq

structure AgentTask where
  task_id : String
  task_type : TaskType
  dependencies : List String
deriving DecidableEq

/-- Embeds `_create_default_plan` (lines 345-404): the fixed seven-task
fallback plan.  The `user_query` argument only feeds the opaque
`input_data` payloads, which the scheduler never inspects. -/
def defaultPlan (_userQuery : String) : List AgentTask :=
  [ ⟨"1_discover_schema", .schema_discovery, []⟩,
    ⟨"2_semantic_analysis", .semantic_understanding, []⟩,
    ⟨"3_similarity_matching", .similarity_matching,
      ["1_discover_schema", "2_semantic_analysis"]⟩,
    ⟨"4_user_verification", .user_interaction, ["3_similarity_matching"]⟩,
    ⟨"5_query_generation", .query_generation, ["4_user_verification"]⟩,
    ⟨"6_query_execution", .execution, ["5_query_generation"]⟩,
    ⟨"7_visualization", .visualization, ["6_query_execution"]⟩ ]

/-- Embeds `plan_execution` (lines 256-316).  `oracle` abstracts the
reasoning-model chat call (lines 292-302): `.error` is a raised exception,
`.ok content` the returned message text.  `parse` abstracts the JSON
extraction of lines 305-309 together with `_convert_to_agent_tasks`:
`.ok (some ts)` is a successfully parsed task array, `.ok none` means the
regex found no JSON array (line 306), `.error` means `json.loads` or the
task conversion raised; raised exceptions are caught at line 314.  In every
failure case the default plan is returned. -/
def planExecution (oracle : Except String String)
    (parse : String → Except String (Option (List AgentTask)))
    (userQuery : String) : List AgentTask :=
  match oracle with
  | .error _ => defaultPlan userQuery
  | .ok content =>
    match parse content with
    | .ok (some ts) => ts
    | .ok none => defaultPlan userQuery
    | .error _ => defaultPlan userQuery

/-- `ord` lists every task of `tasks` (it is a permutation) and every
dependency of a task refers to an earlier task in `ord`; the existence of
such an order is acyclicity of the dependency graph. -/
def IsTopo (tasks ord : List AgentTask) : Prop :=
  ord.Perm tasks ∧
  ∀ i : Fin ord.length, ∀ d ∈ (ord.get i).dependencies,
    ∃ j : Fin ord.length, j.val < i.val ∧ (ord.get j).task_id = d

/-! ## Orchestrator: execution engine `execute_plan` (lines 406-448)
`results` is a Python dict keyed by task id (modelled as an association list
in insertion order), `completed_tasks` a set of ids (modelled as a
duplicate-free list; `len` is its cardinality).  Each iteration of the
`while` loop computes the ready tasks, breaks when none exist, and otherwise
runs every ready task through `_execute_single_task` — abstracted as the
oracle `runTask`.  A handler exception aborts the whole plan when the task
type is critical (`USER_INTERACTION`, `VALIDATION`, line 440) and otherwise
records a fallback result and marks the task completed.  The loop in the
model carries explicit fuel; `executePlan` supplies `tasks.length + 1`,
which the termination theorem shows is never exhausted, so `none` (out of
fuel) never occurs. -/

/-- A recorded task result: `done` for a handler return value (abstracted to
an opaque payload), `fallback err` for the mapping
with the error description and the fallback marker set, built at line 445. -/
inductive TaskOutcome where
  | done (payload : String)
  | fallback (err : String)
deriving DecidableEq

/-- Line 440: the critical task types whose handler exceptions propagate. -/
def criticalType : TaskType → Bool
  | .user_interaction => true
  | .validation => true
  | _ => false

/-- Python set insertion: `completed_tasks.add(id)`. -/
def insertId (comp : List String) (k : String) : List String :=
  if k ∈ comp then comp else comp ++ [k]

/-- Python dict assignment `results[id] = v`: overwrite in place if the key
exists, else append. -/
def upsert (res : List (String × TaskOutcome)) (k : String) (v : TaskOutcome) :
    List (String × TaskOutcome) :=
  if k ∈ res.map Prod.fst then
    res.map fun p => if p.1 = k then (k, v) else p
  else res ++ [(k, v)]

/-- Lines 417-421: the tasks whose id is not completed and whose
dependencies are all completed, in plan order. -/
def readyTasks (tasks : List AgentTask) (comp : List String) : List AgentTask :=
  tasks.filter fun t =>
    decide (t.task_id ∉ comp) && t.dependencies.all fun d => decide (d ∈ comp)

/-- The inner `for task in ready_tasks` loop (lines 428-446): run each ready
task; on success record the payload, on failure abort if the type is
critical and otherwise record the fallback mapping; in both recording cases
add the id to the completed set. -/
def processWave (runTask : AgentTask → Except String String) :
    List AgentTask → List (String × TaskOutcome) → List String →
    Except String (List (String × TaskOutcome) × List String)
  | [], res, comp => .ok (res, comp)
  | t :: rest, res, comp =>
    match runTask t with
    | .ok v =>
      processWave runTask rest (upsert res t.task_id (.done v))
        (insertId comp t.task_id)
    | .error e =>
      if criticalType t.task_type then .error e
      else
        processWave runTask rest (upsert res t.task_id (.fallback e))
          (insertId comp t.task_id)

/-- The `while len(completed_tasks) < len(tasks)` loop of lines 415-446,
with explicit fuel.  `none` means the fuel ran out (never reached with the
fuel supplied by `executePlan`); `some (.ok res)` is a normal return of the
results dict — reached both on completion and on the deadlock `break` of
line 424, which returns the results accumulated so far with no further
marking; `some (.error e)` is a propagated critical-task exception. -/
def execLoop (runTask : AgentTask → Except String String)
    (tasks : List AgentTask) :
    ℕ → List (String × TaskOutcome) → List String →
    Option (Except String (List (String × TaskOutcome)))
  | 0, _, _ => none
  | fuel + 1, res, comp =>
    if comp.length < tasks.length then
      if readyTasks tasks comp = [] then some (.ok res)
      else
        match processWave runTask (readyTasks tasks comp) res comp with
        | .error e => some (.error e)
        | .ok (res2, comp2) => execLoop runTask tasks fuel res2 comp2
    else some (.ok res)

/-- Embeds `execute_plan` (lines 406-448). -/
def executePlan (runTask : AgentTask → Except String String)
    (tasks : List AgentTask) :
    Option (Except String (List (String × TaskOutcome))) :=
  execLoop runTask tasks (tasks.length + 1) [] []

/-! ## Orchestrator: indexing-completeness check
`_check_and_perform_comprehensive_indexing` (lines 95-134) and
`_perform_full_database_indexing` (lines 136-175). -/

/-- The side effects of a full rebuild, in order: clear the index
(line 158), then re-populate it (line 164). -/
inductive IndexAction where
  | clear
  | populate
deriving DecidableEq

/-- The action sequence of `_perform_full_database_indexing`. -/
def fullIndexActions : List IndexAction := [.clear, .populate]

/-- Lines 113-119: expected vectors = table count x 4 chunks per table;
completeness is the ratio of indexed vectors to expected vectors, 0 when
the expected count is 0. -/
def indexingCompleteness (totalVectors tableCount : ℕ) : ℚ :=
  let expected := tableCount * 4
  if 0 < expected then (totalVectors : ℚ) / (expected : ℚ) else 0

/-- Lines 124-131: rebuild iff completeness is below 0.8 or the index is
empty, and at least one table is available; returns the triggered action
sequence (empty when no rebuild happens). -/
def checkIndexing (totalVectors tableCount : ℕ) : List IndexAction :=
  let shouldIndex :=
    decide (indexingCompleteness totalVectors tableCount < 4 / 5) ||
      decide (totalVectors = 0)
  if shouldIndex && decide (0 < tableCount) then fullIndexActions else []

/-- An entry of the results dict is faithful to the plan: it was produced by
running some plan task, recording its payload on success or the
error-with-fallback mapping on a non-critical failure. -/
def FaithfulEntry (tasks : List AgentTask)
    (runTask : AgentTask → Except String String)
    (p : String × TaskOutcome) : Prop :=
  ∃ t ∈ tasks, t.task_id = p.1 ∧
    ((∃ v, runTask t = .ok v ∧ p.2 = .done v) ∨
     (∃ e, runTask t = .error e ∧ criticalType t.task_type = false ∧
       p.2 = .fallback e))

/-- A 51-table demo catalog ("t0" … "t50") exercising the large-schema
branch of `initialize_from_database`. -/
def demoCatalog : List String := (List.range 51).map fun i => "t" ++ toString i

/-! ## Theorems -/

theorem dot_self_nonneg (a : Vec) : 0 ≤ dot a a := by
  unfold dot
  induction a with
  | nil => simp
  | cons x xs ih =>
    simp only [List.zipWith_cons_cons, List.sum_cons]
    have : 0 ≤ x * x := mul_self_nonneg x
    nlinarith [ih]

theorem nrm_eq_zero_iff (a : Vec) : nrm a = 0 ↔ dot a a = 0 := by
  unfold nrm
  constructor
  · intro h
    have h0 := dot_self_nonneg a
    have := Real.sqrt_eq_zero h0 |>.mp h
    exact this
  · intro h; rw [h, Real.sqrt_zero]

theorem cosineSimilarity_self (a : Vec) (h : dot a a ≠ 0) :
    cosineSimilarity a a = 1 := by
  unfold cosineSimilarity
  have hn : nrm a ≠ 0 := fun hz => h ((nrm_eq_zero_iff a).mp hz)
  rw [if_neg (by tauto)]
  have hsq : nrm a * nrm a = dot a a := by
    unfold nrm
    exact Real.mul_self_sqrt (dot_self_nonneg a)
  rw [hsq]
  exact div_self h

theorem cosineSimilarity_orth (a b : Vec) (h : dot a b = 0) :
    cosineSimilarity a b = 0 := by
  unfold cosineSimilarity
  by_cases hz : nrm a = 0 ∨ nrm b = 0
  · rw [if_pos hz]
  · rw [if_neg hz, h, zero_div]

theorem cosineSimilarity_zero_norm (a b : Vec) (h : nrm a = 0 ∨ nrm b = 0) :
    cosineSimilarity a b = 0 := by
  unfold cosineSimilarity
  rw [if_pos h]

/-! ## Helper lemmas about the execution engine -/

theorem upsert_map_fst (res : List (String × TaskOutcome)) (k : String)
    (v : TaskOutcome) :
    (upsert res k v).map Prod.fst = insertId (res.map Prod.fst) k := by
  unfold upsert insertId
  by_cases h : k ∈ res.map Prod.fst
  · rw [if_pos h, if_pos h, List.map_map]
    apply List.map_congr_left
    intro p _
    by_cases hp : p.1 = k
    · simp [hp]
    · simp [hp]
  · rw [if_neg h, if_neg h, List.map_append]
    rfl

theorem mem_upsert (res : List (String × TaskOutcome)) (k : String)
    (v : TaskOutcome) (p : String × TaskOutcome) (hp : p ∈ upsert res k v) :
    p ∈ res ∨ p = (k, v) := by
  unfold upsert at hp
  by_cases h : k ∈ res.map Prod.fst
  · rw [if_pos h] at hp
    rcases List.mem_map.mp hp with ⟨q, hq, rfl⟩
    by_cases hqk : q.1 = k
    · simp [hqk]
    · simp [hqk]
      exact Or.inl hq
  · rw [if_neg h] at hp
    rcases List.mem_append.mp hp with h1 | h1
    · exact Or.inl h1
    · simp at h1
      exact Or.inr h1

theorem insertId_nodup (comp : List String) (k : String) (h : comp.Nodup) :
    (insertId comp k).Nodup := by
  unfold insertId
  by_cases hk : k ∈ comp
  · rwa [if_pos hk]
  · rw [if_neg hk]
    simp [List.nodup_append, h, hk]

theorem insertId_subset (comp : List String) (k : String) (S : List String)
    (h : comp ⊆ S) (hk : k ∈ S) : insertId comp k ⊆ S := by
  unfold insertId
  by_cases hm : k ∈ comp
  · rwa [if_pos hm]
  · rw [if_neg hm]
    intro x hx
    rcases List.mem_append.mp hx with h1 | h1
    · exact h h1
    · simp at h1; subst h1; exact hk

theorem subset_insertId (comp : List String) (k : String) :
    comp ⊆ insertId comp k := by
  unfold insertId
  by_cases hm : k ∈ comp
  · rw [if_pos hm]
    exact fun x hx => hx
  · rw [if_neg hm]
    exact fun x hx => List.mem_append.mpr (Or.inl hx)

theorem processWave_cons_ok (runTask : AgentTask → Except String String)
    (t : AgentTask) (rest : List AgentTask)
    (res : List (String × TaskOutcome)) (comp : List String) (v : String)
    (hrt : runTask t = .ok v) :
    processWave runTask (t :: rest) res comp =
      processWave runTask rest (upsert res t.task_id (.done v))
        (insertId comp t.task_id) := by
  conv_lhs => rw [processWave]
  rw [hrt]

theorem processWave_cons_err_crit (runTask : AgentTask → Except String String)
    (t : AgentTask) (rest : List AgentTask)
    (res : List (String × TaskOutcome)) (comp : List String) (e : String)
    (hrt : runTask t = .error e) (hc : criticalType t.task_type = true) :
    processWave runTask (t :: rest) res comp = .error e := by
  conv_lhs => rw [processWave]
  rw [hrt]
  simp [hc]

theorem processWave_cons_err_fall (runTask : AgentTask → Except String String)
    (t : AgentTask) (rest : List AgentTask)
    (res : List (String × TaskOutcome)) (comp : List String) (e : String)
    (hrt : runTask t = .error e) (hc : criticalType t.task_type = false) :
    processWave runTask (t :: rest) res comp =
      processWave runTask rest (upsert res t.task_id (.fallback e))
        (insertId comp t.task_id) := by
  conv_lhs => rw [processWave]
  rw [hrt]
  simp [hc]

theorem mem_insertId (comp : List String) (k : String) :
    k ∈ insertId comp k := by
  unfold insertId
  by_cases hm : k ∈ comp
  · rwa [if_pos hm]
  · rw [if_neg hm]; simp

theorem length_insertId_le (comp : List String) (k : String) :
    comp.length ≤ (insertId comp k).length := by
  unfold insertId
  by_cases hm : k ∈ comp
  · rw [if_pos hm]
  · rw [if_neg hm]; simp

theorem length_insertId_of_not_mem (comp : List String) (k : String)
    (hk : k ∉ comp) : (insertId comp k).length = comp.length + 1 := by
  unfold insertId
  rw [if_neg hk]; simp

theorem processWave_error (runTask : AgentTask → Except String String) :
    ∀ (w : List AgentTask) (res : List (String × TaskOutcome))
      (comp : List String) (e : String),
      processWave runTask w res comp = .error e →
      ∃ t ∈ w, criticalType t.task_type = true ∧ runTask t = .error e := by
  intro w
  induction w with
  | nil => intro res comp e h; simp [processWave] at h
  | cons t rest ih =>
    intro res comp e h
    cases hrt : runTask t with
    | ok v =>
      rw [processWave_cons_ok runTask t rest res comp v hrt] at h
      rcases ih _ _ _ h with ⟨t2, ht2, hc, he⟩
      exact ⟨t2, List.mem_cons_of_mem _ ht2, hc, he⟩
    | error e2 =>
      cases hc : criticalType t.task_type with
      | true =>
        rw [processWave_cons_err_crit runTask t rest res comp e2 hrt hc] at h
        injection h with h2
        subst h2
        exact ⟨t, List.mem_cons_self _ _, hc, hrt⟩
      | false =>
        rw [processWave_cons_err_fall runTask t rest res comp e2 hrt hc] at h
        rcases ih _ _ _ h with ⟨t2, ht2, hc2, he⟩
        exact ⟨t2, List.mem_cons_of_mem _ ht2, hc2, he⟩

theorem processWave_ok_keys (runTask : AgentTask → Except String String) :
    ∀ (w : List AgentTask) (res res2 : List (String × TaskOutcome))
      (comp comp2 : List String),
      res.map Prod.fst = comp →
      processWave runTask w res comp = .ok (res2, comp2) →
      res2.map Prod.fst = comp2 := by
  intro w
  induction w with
  | nil =>
    intro res res2 comp comp2 hk h
    simp [processWave] at h
    rw [← h.1, ← h.2, hk]
  | cons t rest ih =>
    intro res res2 comp comp2 hk h
    cases hrt : runTask t with
    | ok v =>
      rw [processWave_cons_ok runTask t rest res comp v hrt] at h
      exact ih _ _ _ _ (by rw [upsert_map_fst, hk]) h
    | error e2 =>
      cases hc : criticalType t.task_type with
      | true =>
        rw [processWave_cons_err_crit runTask t rest res comp e2 hrt hc] at h
        exact absurd h (by simp)
      | false =>
        rw [processWave_cons_err_fall runTask t rest res comp e2 hrt hc] at h
        exact ih _ _ _ _ (by rw [upsert_map_fst, hk]) h

theorem processWave_ok_nodup (runTask : AgentTask → Except String String) :
    ∀ (w : List AgentTask) (res res2 : List (String × TaskOutcome))
      (comp comp2 : List String),
      comp.Nodup →
      processWave runTask w res comp = .ok (res2, comp2) →
      comp2.Nodup := by
  intro w
  induction w with
  | nil =>
    intro res res2 comp comp2 hn h
    simp [processWave] at h
    rw [← h.2]; exact hn
  | cons t rest ih =>
    intro res res2 comp comp2 hn h
    cases hrt : runTask t with
    | ok v =>
      rw [processWave_cons_ok runTask t rest res comp v hrt] at h
      exact ih _ _ _ _ (insertId_nodup _ _ hn) h
    | error e2 =>
      cases hc : criticalType t.task_type with
      | true =>
        rw [processWave_cons_err_crit runTask t rest res comp e2 hrt hc] at h
        exact absurd h (by simp)
      | false =>
        rw [processWave_cons_err_fall runTask t rest res comp e2 hrt hc] at h
        exact ih _ _ _ _ (insertId_nodup _ _ hn) h

theorem processWave_ok_subset (runTask : AgentTask → Except String String)
    (S : List String) :
    ∀ (w : List AgentTask) (res res2 : List (String × TaskOutcome))
      (comp comp2 : List String),
      comp ⊆ S → (∀ t ∈ w, t.task_id ∈ S) →
      processWave runTask w res comp = .ok (res2, comp2) →
      comp2 ⊆ S := by
  intro w
  induction w with
  | nil =>
    intro res res2 comp comp2 hs _ h
    simp [processWave] at h
    rw [← h.2]; exact hs
  | cons t rest ih =>
    intro res res2 comp comp2 hs hw h
    have hts : t.task_id ∈ S := hw t (List.mem_cons_self _ _)
    have hrest : ∀ t2 ∈ rest, t2.task_id ∈ S :=
      fun t2 ht2 => hw t2 (List.mem_cons_of_mem _ ht2)
    cases hrt : runTask t with
    | ok v =>
      rw [processWave_cons_ok runTask t rest res comp v hrt] at h
      exact ih _ _ _ _ (insertId_subset _ _ _ hs hts) hrest h
    | error e2 =>
      cases hc : criticalType t.task_type with
      | true =>
        rw [processWave_cons_err_crit runTask t rest res comp e2 hrt hc] at h
        exact absurd h (by simp)
      | false =>
        rw [processWave_cons_err_fall runTask t rest res comp e2 hrt hc] at h
        exact ih _ _ _ _ (insertId_subset _ _ _ hs hts) hrest h

theorem processWave_ok_mono (runTask : AgentTask → Except String String) :
    ∀ (w : List AgentTask) (res res2 : List (String × TaskOutcome))
      (comp comp2 : List String),
      processWave runTask w res comp = .ok (res2, comp2) →
      comp ⊆ comp2 ∧ comp.length ≤ comp2.length := by
  intro w
  induction w with
  | nil =>
    intro res res2 comp comp2 h
    simp [processWave] at h
    rw [← h.2]
    exact ⟨fun x hx => hx, le_refl _⟩
  | cons t rest ih =>
    intro res res2 comp comp2 h
    cases hrt : runTask t with
    | ok v =>
      rw [processWave_cons_ok runTask t rest res comp v hrt] at h
      rcases ih _ _ _ _ h with ⟨h1, h2⟩
      exact ⟨fun x hx => h1 (subset_insertId _ _ hx),
        le_trans (length_insertId_le _ _) h2⟩
    | error e2 =>
      cases hc : criticalType t.task_type with
      | true =>
        rw [processWave_cons_err_crit runTask t rest res comp e2 hrt hc] at h
        exact absurd h (by simp)
      | false =>
        rw [processWave_cons_err_fall runTask t rest res comp e2 hrt hc] at h
        rcases ih _ _ _ _ h with ⟨h1, h2⟩
        exact ⟨fun x hx => h1 (subset_insertId _ _ hx),
          le_trans (length_insertId_le _ _) h2⟩

theorem processWave_ok_progress (runTask : AgentTask → Except String String)
    (t : AgentTask) (rest : List AgentTask)
    (res res2 : List (String × TaskOutcome)) (comp comp2 : List String)
    (hid : t.task_id ∉ comp)
    (h : processWave runTask (t :: rest) res comp = .ok (res2, comp2)) :
    comp.length < comp2.length := by
  cases hrt : runTask t with
  | ok v =>
    rw [processWave_cons_ok runTask t rest res comp v hrt] at h
    have := (processWave_ok_mono runTask rest _ _ _ _ h).2
    rw [length_insertId_of_not_mem _ _ hid] at this
    omega
  | error e2 =>
    cases hc : criticalType t.task_type with
    | true =>
      rw [processWave_cons_err_crit runTask t rest res comp e2 hrt hc] at h
      exact absurd h (by simp)
    | false =>
      rw [processWave_cons_err_fall runTask t rest res comp e2 hrt hc] at h
      have := (processWave_ok_mono runTask rest _ _ _ _ h).2
      rw [length_insertId_of_not_mem _ _ hid] at this
      omega

theorem processWave_ok_entries (tasks : List AgentTask)
    (runTask : AgentTask → Except String String) :
    ∀ (w : List AgentTask) (res res2 : List (String × TaskOutcome))
      (comp comp2 : List String),
      (∀ p ∈ res, FaithfulEntry tasks runTask p) → (∀ t ∈ w, t ∈ tasks) →
      processWave runTask w res comp = .ok (res2, comp2) →
      ∀ p ∈ res2, FaithfulEntry tasks runTask p := by
  intro w
  induction w with
  | nil =>
    intro res res2 comp comp2 hres _ h
    simp [processWave] at h
    rw [← h.1]
    exact hres
  | cons t rest ih =>
    intro res res2 comp comp2 hres hw h
    have ht : t ∈ tasks := hw t (List.mem_cons_self _ _)
    have hrest : ∀ t2 ∈ rest, t2 ∈ tasks :=
      fun t2 ht2 => hw t2 (List.mem_cons_of_mem _ ht2)
    cases hrt : runTask t with
    | ok v =>
      rw [processWave_cons_ok runTask t rest res comp v hrt] at h
      refine ih _ _ _ _ ?_ hrest h
      intro p hp
      rcases mem_upsert _ _ _ _ hp with h1 | h1
      · exact hres p h1
      · subst h1
        exact ⟨t, ht, rfl, Or.inl ⟨v, hrt, rfl⟩⟩
    | error e2 =>
      cases hc : criticalType t.task_type with
      | true =>
        rw [processWave_cons_err_crit runTask t rest res comp e2 hrt hc] at h
        exact absurd h (by simp)
      | false =>
        rw [processWave_cons_err_fall runTask t rest res comp e2 hrt hc] at h
        refine ih _ _ _ _ ?_ hrest h
        intro p hp
        rcases mem_upsert _ _ _ _ hp with h1 | h1
        · exact hres p h1
        · subst h1
          exact ⟨t, ht, rfl, Or.inr ⟨e2, hrt, hc, rfl⟩⟩

theorem execLoop_succ_done (runTask : AgentTask → Except String String)
    (tasks : List AgentTask) (fuel : ℕ)
    (res : List (String × TaskOutcome)) (comp : List String)
    (hguard : ¬ comp.length < tasks.length) :
    execLoop runTask tasks (fuel + 1) res comp = some (.ok res) := by
  conv_lhs => rw [execLoop]
  rw [if_neg hguard]

theorem execLoop_succ_break (runTask : AgentTask → Except String String)
    (tasks : List AgentTask) (fuel : ℕ)
    (res : List (String × TaskOutcome)) (comp : List String)
    (hguard : comp.length < tasks.length)
    (hready : readyTasks tasks comp = []) :
    execLoop runTask tasks (fuel + 1) res comp = some (.ok res) := by
  conv_lhs => rw [execLoop]
  rw [if_pos hguard, if_pos hready]

theorem execLoop_succ_err (runTask : AgentTask → Except String String)
    (tasks : List AgentTask) (fuel : ℕ)
    (res : List (String × TaskOutcome)) (comp : List String) (e : String)
    (hguard : comp.length < tasks.length)
    (hready : ¬ readyTasks tasks comp = [])
    (hpw : processWave runTask (readyTasks tasks comp) res comp = .error e) :
    execLoop runTask tasks (fuel + 1) res comp = some (.error e) := by
  conv_lhs => rw [execLoop]
  rw [if_pos hguard, if_neg hready, hpw]

theorem execLoop_succ_step (runTask : AgentTask → Except String String)
    (tasks : List AgentTask) (fuel : ℕ)
    (res res2 : List (String × TaskOutcome)) (comp comp2 : List String)
    (hguard : comp.length < tasks.length)
    (hready : ¬ readyTasks tasks comp = [])
    (hpw : processWave runTask (readyTasks tasks comp) res comp =
      .ok (res2, comp2)) :
    execLoop runTask tasks (fuel + 1) res comp =
      execLoop runTask tasks fuel res2 comp2 := by
  conv_lhs => rw [execLoop]
  rw [if_pos hguard, if_neg hready, hpw]

theorem mem_readyTasks {tasks : List AgentTask} {comp : List String}
    {t : AgentTask} :
    t ∈ readyTasks tasks comp ↔
      t ∈ tasks ∧ t.task_id ∉ comp ∧ ∀ d ∈ t.dependencies, d ∈ comp := by
  unfold readyTasks
  simp [List.mem_filter, List.all_eq_true, and_assoc]

theorem readyTasks_subset (tasks : List AgentTask) (comp : List String) :
    readyTasks tasks comp ⊆ tasks :=
  List.filter_subset' _

theorem readyTasks_ne_nil_of_topo (tasks ord : List AgentTask)
    (comp : List String)
    (hids : (tasks.map AgentTask.task_id).Nodup)
    (htopo : IsTopo tasks ord)
    (hlen : comp.length < tasks.length) :
    readyTasks tasks comp ≠ [] := by
  have hex : ∃ t ∈ ord, (fun t => decide (t.task_id ∉ comp)) t = true := by
    by_contra hcon
    push_neg at hcon
    have hsub2 : tasks.map AgentTask.task_id ⊆ comp := by
      intro x hx
      rcases List.mem_map.mp hx with ⟨t, ht, rfl⟩
      have ht2 : t ∈ ord := (htopo.1.mem_iff).mpr ht
      have := hcon t ht2
      simpa using this
    have hle := (hids.subperm hsub2).length_le
    rw [List.length_map] at hle
    omega
  have hidx : ord.findIdx (fun t => decide (t.task_id ∉ comp)) < ord.length :=
    List.findIdx_lt_length_of_exists hex
  have hti : (fun t => decide (t.task_id ∉ comp))
      (ord.get ⟨ord.findIdx (fun t => decide (t.task_id ∉ comp)), hidx⟩) = true := by
    have := List.findIdx_getElem (w := hidx)
    simpa [List.get_eq_getElem] using this
  have htmem : ord.get ⟨_, hidx⟩ ∈ tasks :=
    (htopo.1.mem_iff).mp (ord.get_mem _ hidx)
  have hdeps : ∀ d ∈ (ord.get ⟨_, hidx⟩).dependencies, d ∈ comp := by
    intro d hd
    rcases htopo.2 ⟨_, hidx⟩ d hd with ⟨j, hj, hjd⟩
    have hfalse := List.not_of_lt_findIdx hj
    rw [← hjd]
    have : ¬ (ord.get j).task_id ∉ comp := by
      simpa [List.get_eq_getElem] using hfalse
    exact not_not.mp this
  have hready : ord.get ⟨_, hidx⟩ ∈ readyTasks tasks comp :=
    mem_readyTasks.mpr ⟨htmem, by simpa using hti, hdeps⟩
  exact List.ne_nil_of_mem hready

theorem execLoop_isSome (runTask : AgentTask → Except String String)
    (tasks : List AgentTask) :
    ∀ (fuel : ℕ) (res : List (String × TaskOutcome)) (comp : List String),
      tasks.length - comp.length < fuel →
      (execLoop runTask tasks fuel res comp).isSome := by
  intro fuel
  induction fuel with
  | zero => intro res comp h; omega
  | succ fuel ih =>
    intro res comp h
    by_cases hguard : comp.length < tasks.length
    · by_cases hready : readyTasks tasks comp = []
      · rw [execLoop_succ_break _ _ _ _ _ hguard hready]; simp
      · cases hpw : processWave runTask (readyTasks tasks comp) res comp with
        | error e =>
          rw [execLoop_succ_err _ _ _ _ _ _ hguard hready hpw]; simp
        | ok pr =>
          obtain ⟨res2, comp2⟩ := pr
          rw [execLoop_succ_step _ _ _ _ _ _ _ hguard hready hpw]
          apply ih
          rcases List.exists_cons_of_ne_nil hready with ⟨r, rs, hcons⟩
          have hr : r ∈ readyTasks tasks comp := by
            rw [hcons]; exact List.mem_cons_self _ _
          have hid : r.task_id ∉ comp := (mem_readyTasks.mp hr).2.1
          rw [hcons] at hpw
          have hprog := processWave_ok_progress runTask r rs _ _ _ _ hid hpw
          omega
    · rw [execLoop_succ_done _ _ _ _ _ hguard]; simp

theorem execLoop_error_src (runTask : AgentTask → Except String String)
    (tasks : List AgentTask) :
    ∀ (fuel : ℕ) (res : List (String × TaskOutcome)) (comp : List String)
      (e : String),
      execLoop runTask tasks fuel res comp = some (.error e) →
      ∃ t ∈ tasks, criticalType t.task_type = true ∧ runTask t = .error e := by
  intro fuel
  induction fuel with
  | zero => intro res comp e h; simp [execLoop] at h
  | succ fuel ih =>
    intro res comp e h
    by_cases hguard : comp.length < tasks.length
    · by_cases hready : readyTasks tasks comp = []
      · rw [execLoop_succ_break _ _ _ _ _ hguard hready] at h
        simp at h
      · cases hpw : processWave runTask (readyTasks tasks comp) res comp with
        | error e2 =>
          rw [execLoop_succ_err _ _ _ _ _ _ hguard hready hpw] at h
          have he : e2 = e := by simpa using h
          subst he
          rcases processWave_error runTask _ _ _ _ hpw with ⟨t, ht, hc, hrt⟩
          exact ⟨t, readyTasks_subset tasks comp ht, hc, hrt⟩
        | ok pr =>
          obtain ⟨res2, comp2⟩ := pr
          rw [execLoop_succ_step _ _ _ _ _ _ _ hguard hready hpw] at h
          exact ih _ _ _ h
    · rw [execLoop_succ_done _ _ _ _ _ hguard] at h
      simp at h

theorem execLoop_entries (runTask : AgentTask → Except String String)
    (tasks : List AgentTask) :
    ∀ (fuel : ℕ) (res : List (String × TaskOutcome)) (comp : List String),
      (∀ p ∈ res, FaithfulEntry tasks runTask p) →
      ∀ m, execLoop runTask tasks fuel res comp = some (.ok m) →
      ∀ p ∈ m, FaithfulEntry tasks runTask p := by
  intro fuel
  induction fuel with
  | zero => intro res comp _ m h; simp [execLoop] at h
  | succ fuel ih =>
    intro res comp hres m h
    by_cases hguard : comp.length < tasks.length
    · by_cases hready : readyTasks tasks comp = []
      · rw [execLoop_succ_break _ _ _ _ _ hguard hready] at h
        have : res = m := by simpa using h
        subst this
        exact hres
      · cases hpw : processWave runTask (readyTasks tasks comp) res comp with
        | error e =>
          rw [execLoop_succ_err _ _ _ _ _ _ hguard hready hpw] at h
          simp at h
        | ok pr =>
          obtain ⟨res2, comp2⟩ := pr
          rw [execLoop_succ_step _ _ _ _ _ _ _ hguard hready hpw] at h
          exact ih res2 comp2
            (processWave_ok_entries tasks runTask _ _ _ _ _ hres
              (fun t ht => readyTasks_subset tasks comp ht) hpw) m h
    · rw [execLoop_succ_done _ _ _ _ _ hguard] at h
      have : res = m := by simpa using h
      subst this
      exact hres

theorem execLoop_complete (runTask : AgentTask → Except String String)
    (tasks ord : List AgentTask)
    (hids : (tasks.map AgentTask.task_id).Nodup)
    (htopo : IsTopo tasks ord) :
    ∀ (fuel : ℕ) (res : List (String × TaskOutcome)) (comp : List String),
      res.map Prod.fst = comp → comp.Nodup →
      comp ⊆ tasks.map AgentTask.task_id →
      ∀ m, execLoop runTask tasks fuel res comp = some (.ok m) →
      (m.map Prod.fst).Perm (tasks.map AgentTask.task_id) := by
  intro fuel
  induction fuel with
  | zero => intro res comp _ _ _ m h; simp [execLoop] at h
  | succ fuel ih =>
    intro res comp hkeys hnodup hsub m h
    by_cases hguard : comp.length < tasks.length
    · have hready := readyTasks_ne_nil_of_topo tasks ord comp hids htopo hguard
      cases hpw : processWave runTask (readyTasks tasks comp) res comp with
      | error e =>
        rw [execLoop_succ_err _ _ _ _ _ _ hguard hready hpw] at h
        simp at h
      | ok pr =>
        obtain ⟨res2, comp2⟩ := pr
        rw [execLoop_succ_step _ _ _ _ _ _ _ hguard hready hpw] at h
        have hkeys2 := processWave_ok_keys runTask _ _ _ _ _ hkeys hpw
        have hnodup2 := processWave_ok_nodup runTask _ _ _ _ _ hnodup hpw
        have hsub2 := processWave_ok_subset runTask _ _ _ _ _ _ hsub
          (fun t ht => List.mem_map_of_mem _ (readyTasks_subset tasks comp ht))
          hpw
        exact ih res2 comp2 hkeys2 hnodup2 hsub2 m h
    · rw [execLoop_succ_done _ _ _ _ _ hguard] at h
      have hrm : res = m := by simpa using h
      subst hrm
      rw [hkeys]
      have hsp := hnodup.subperm hsub
      refine hsp.perm_of_length_le ?_
      rw [List.length_map]
      omega

theorem execLoop_downstream (runTask : AgentTask → Except String String)
    (tasks : List AgentTask) :
    ∀ (fuel : ℕ) (res : List (String × TaskOutcome)) (comp : List String),
      res.map Prod.fst = comp → comp.Nodup →
      comp ⊆ tasks.map AgentTask.task_id →
      ∀ m, execLoop runTask tasks fuel res comp = some (.ok m) →
      ∀ t ∈ tasks, (∀ d ∈ t.dependencies, d ∈ m.map Prod.fst) →
        t.task_id ∈ m.map Prod.fst := by
  intro fuel
  induction fuel with
  | zero => intro res comp _ _ _ m h; simp [execLoop] at h
  | succ fuel ih =>
    intro res comp hkeys hnodup hsub m h
    by_cases hguard : comp.length < tasks.length
    · by_cases hready : readyTasks tasks comp = []
      · rw [execLoop_succ_break _ _ _ _ _ hguard hready] at h
        have hrm : res = m := by simpa using h
        subst hrm
        intro t ht hdeps
        by_contra hid
        have : t ∈ readyTasks tasks comp :=
          mem_readyTasks.mpr ⟨ht, by rw [← hkeys]; exact hid,
            fun d hd => by rw [← hkeys]; exact hdeps d hd⟩
        rw [hready] at this
        simp at this
      · cases hpw : processWave runTask (readyTasks tasks comp) res comp with
        | error e =>
          rw [execLoop_succ_err _ _ _ _ _ _ hguard hready hpw] at h
          simp at h
        | ok pr =>
          obtain ⟨res2, comp2⟩ := pr
          rw [execLoop_succ_step _ _ _ _ _ _ _ hguard hready hpw] at h
          have hkeys2 := processWave_ok_keys runTask _ _ _ _ _ hkeys hpw
          have hnodup2 := processWave_ok_nodup runTask _ _ _ _ _ hnodup hpw
          have hsub2 := processWave_ok_subset runTask _ _ _ _ _ _ hsub
            (fun t ht => List.mem_map_of_mem _ (readyTasks_subset tasks comp ht))
            hpw
          exact ih res2 comp2 hkeys2 hnodup2 hsub2 m h
    · rw [execLoop_succ_done _ _ _ _ _ hguard] at h
      have hrm : res = m := by simpa using h
      subst hrm
      intro t ht _
      have hsp := hnodup.subperm hsub
      have hperm : comp.Perm (tasks.map AgentTask.task_id) := by
        refine hsp.perm_of_length_le ?_
        rw [List.length_map]
        omega
      rw [hkeys]
      exact hperm.mem_iff.mpr (List.mem_map_of_mem _ ht)

/-! ## Claim theorems -/

/-- C8: the indexing-completeness check triggers the full rebuild (clear,
then re-populate) exactly when the indexed-vector/expected ratio (expected =
tables x 4) is below 0.8 or the indexed count is zero, provided at least one
table is available; with 0 vectors and 10 tables a rebuild is triggered; a
ratio of at least 0.8 never triggers a rebuild. -/
theorem indexing_check_triggers_rebuild :
    (∀ v t : ℕ, checkIndexing v t = fullIndexActions ↔
      ((indexingCompleteness v t < 4 / 5 ∨ v = 0) ∧ 0 < t)) ∧
    fullIndexActions = [.clear, .populate] ∧
    checkIndexing 0 10 = fullIndexActions ∧
    (∀ v t : ℕ, 4 / 5 ≤ indexingCompleteness v t → checkIndexing v t = []) := by
  refine ⟨?_, rfl, ?_, ?_⟩
  · intro v t
    constructor
    · intro h
      by_contra hc
      simp only [checkIndexing, Bool.and_eq_true, Bool.or_eq_true,
        decide_eq_true_eq] at h
      split at h
      · rename_i hcond
        exact hc ⟨hcond.1, hcond.2⟩
      · exact absurd h.symm (by simp [fullIndexActions])
    · intro h
      have hcond : ((decide (indexingCompleteness v t < 4 / 5) ||
          decide (v = 0)) && decide (0 < t)) = true := by
        simp only [Bool.and_eq_true, Bool.or_eq_true, decide_eq_true_eq]
        exact ⟨h.1, h.2⟩
      simp [checkIndexing, hcond]
  · norm_num [checkIndexing, indexingCompleteness]
  · intro v t h
    have hv : v ≠ 0 := by
      intro hv0
      subst hv0
      unfold indexingCompleteness at h
      by_cases ht : 0 < t * 4
      · rw [if_pos ht] at h
        norm_num at h
      · rw [if_neg ht] at h
        norm_num at h
    have hnlt : ¬ indexingCompleteness v t < 4 / 5 := not_lt.mpr h
    simp [checkIndexing, hnlt, hv]

/-- Witness for C8 at a concrete complete index: 8 vectors over 2 tables
give completeness 1 ≥ 0.8, and no rebuild is triggered. -/
theorem indexing_check_triggers_rebuild_witness :
    (4 / 5 : ℚ) ≤ indexingCompleteness 8 2 ∧ checkIndexing 8 2 = [] :=
  ⟨by norm_num [indexingCompleteness],
   indexing_check_triggers_rebuild.2.2.2 8 2 (by norm_num [indexingCompleteness])⟩

/-- C2: the default plan has exactly 7 tasks, with ids 1..7 and dependency
wiring 3 depends on 1 and 2, 4 on 3, 5 on 4, 6 on 5, 7 on 6; it is listed
in a topological order (hence acyclic); and `plan_execution` returns it
whenever the reasoning model raises, or its output contains no JSON task
array, or parsing/conversion of that array raises. -/
theorem default_plan_shape :
    (∀ q : String, (defaultPlan q).length = 7) ∧
    (∀ q : String, (defaultPlan q).map (fun t => (t.task_id, t.dependencies)) =
      [("1_discover_schema", []),
       ("2_semantic_analysis", []),
       ("3_similarity_matching", ["1_discover_schema", "2_semantic_analysis"]),
       ("4_user_verification", ["3_similarity_matching"]),
       ("5_query_generation", ["4_user_verification"]),
       ("6_query_execution", ["5_query_generation"]),
       ("7_visualization", ["6_query_execution"])]) ∧
    (∀ q : String, IsTopo (defaultPlan q) (defaultPlan q)) ∧
    (∀ e parse q, planExecution (.error e) parse q = defaultPlan q) ∧
    (∀ content parse q, parse content = .ok none →
      planExecution (.ok content) parse q = defaultPlan q) ∧
    (∀ content parse q e, parse content = .error e →
      planExecution (.ok content) parse q = defaultPlan q) := by
  refine ⟨fun q => rfl, fun q => rfl, fun q => ⟨List.Perm.refl _, by
      have h : defaultPlan q = defaultPlan "" := rfl
      rw [h]
      decide⟩,
    fun e parse q => rfl, ?_, ?_⟩
  · intro content parse q h
    simp only [planExecution]
    rw [h]
  · intro content parse q e h
    simp only [planExecution]
    rw [h]

/-- Witness for C2: concrete planner failures — a raised planner exception
and a response with no parseable JSON array — both yield the default plan. -/
theorem default_plan_shape_witness :
    planExecution (.error "planner down") (fun _ => .ok none) "show sales"
        = defaultPlan "show sales" ∧
    planExecution (.ok "no json array here") (fun _ => .ok none) "show sales"
        = defaultPlan "show sales" ∧
    planExecution (.ok "bad json") (fun _ => .error "json decode failed")
        "show sales" = defaultPlan "show sales" :=
  ⟨default_plan_shape.2.2.2.1 "planner down" (fun _ => .ok none) "show sales",
   default_plan_shape.2.2.2.2.1 "no json array here" (fun _ => .ok none)
     "show sales" rfl,
   default_plan_shape.2.2.2.2.2 "bad json" (fun _ => .error "json decode failed")
     "show sales" "json decode failed" rfl⟩

/-- C9: for every valid task graph — unique task ids, dependencies resolved
inside the plan, acyclic (witnessed by a topological order) — `execute_plan`
terminates (the modelled loop never exhausts its fuel, because every
dispatched wave is non-empty and each of its tasks joins the completed set),
and on termination either every task is recorded exactly once in the result
map, or the plan aborted fatally on a critical task whose handler raised. -/
theorem execute_plan_terminates_on_valid_graphs
    (runTask : AgentTask → Except String String) (tasks ord : List AgentTask)
    (hids : (tasks.map AgentTask.task_id).Nodup)
    (htopo : IsTopo tasks ord) :
    ∃ r, executePlan runTask tasks = some r ∧
      (∀ m, r = .ok m →
        (m.map Prod.fst).Perm (tasks.map AgentTask.task_id) ∧
        (m.map Prod.fst).Nodup) ∧
      (∀ e, r = .error e →
        ∃ t ∈ tasks, criticalType t.task_type = true ∧ runTask t = .error e) := by
  have hs := execLoop_isSome runTask tasks (tasks.length + 1) [] []
    (by simp only [List.length_nil]; omega)
  obtain ⟨r, hr⟩ := Option.isSome_iff_exists.mp hs
  refine ⟨r, hr, ?_, ?_⟩
  · intro m hm
    subst hm
    have hperm := execLoop_complete runTask tasks ord hids htopo
      (tasks.length + 1) [] [] rfl List.nodup_nil (List.nil_subset _) m hr
    exact ⟨hperm, (hperm.nodup_iff).mpr hids⟩
  · intro e he
    subst he
    exact execLoop_error_src runTask tasks (tasks.length + 1) [] [] e hr

/-- Witness for C9 at a concrete two-task chain executed with succeeding
handlers. -/
theorem execute_plan_terminates_on_valid_graphs_witness :
    ∃ r, executePlan (fun _ => .ok "r")
        [⟨"a", .execution, []⟩, ⟨"b", .visualization, ["a"]⟩] = some r ∧
      (∀ m, r = .ok m →
        (m.map Prod.fst).Perm
          (([⟨"a", .execution, []⟩, ⟨"b", .visualization, ["a"]⟩] :
            List AgentTask).map AgentTask.task_id) ∧
        (m.map Prod.fst).Nodup) ∧
      (∀ e, r = .error e →
        ∃ t ∈ ([⟨"a", .execution, []⟩, ⟨"b", .visualization, ["a"]⟩] :
            List AgentTask),
          criticalType t.task_type = true ∧
            (fun _ => Except.ok "r") t = .error e) :=
  execute_plan_terminates_on_valid_graphs (fun _ => .ok "r")
    [⟨"a", .execution, []⟩, ⟨"b", .visualization, ["a"]⟩]
    [⟨"a", .execution, []⟩, ⟨"b", .visualization, ["a"]⟩]
    (by decide) ⟨List.Perm.refl _, by decide⟩

/-- C6: handler failures are recorded as error-plus-fallback mappings for
non-critical task types, with the task still joining the completed set so
that tasks depending on it still become ready and run; a handler failure on
a critical task type (user interaction, validation) propagates out of
`execute_plan` as the plan-aborting exception.  Concretely: a propagated
exception always originates from a critical task's handler; every entry of a
returned result map is the faithful record of some plan task (payload on
success, `fallback` with the error text on a non-critical failure — never a
critical failure); and any task all of whose dependencies appear in the
returned map appears in it too. -/
theorem handler_failure_policy
    (runTask : AgentTask → Except String String) (tasks : List AgentTask) :
    (∀ e, executePlan runTask tasks = some (.error e) →
      ∃ t ∈ tasks, criticalType t.task_type = true ∧ runTask t = .error e) ∧
    (∀ m, executePlan runTask tasks = some (.ok m) →
      (∀ p ∈ m, FaithfulEntry tasks runTask p) ∧
      (∀ t ∈ tasks, (∀ d ∈ t.dependencies, d ∈ m.map Prod.fst) →
        t.task_id ∈ m.map Prod.fst)) := by
  constructor
  · intro e he
    exact execLoop_error_src runTask tasks (tasks.length + 1) [] [] e he
  · intro m hm
    constructor
    · exact execLoop_entries runTask tasks (tasks.length + 1) [] []
        (by simp) m hm
    · exact execLoop_downstream runTask tasks (tasks.length + 1) [] [] rfl
        List.nodup_nil (List.nil_subset _) m hm

/-- Witness for C6: a non-critical task whose handler raises is recorded as
a fallback entry in a normally returned map, and a critical task whose
handler raises aborts the plan with that very exception. -/
theorem handler_failure_policy_witness :
    ((∀ p ∈ [("a", TaskOutcome.fallback "boom")],
        FaithfulEntry [⟨"a", .execution, []⟩] (fun _ => .error "boom") p) ∧
      (∀ t ∈ ([⟨"a", .execution, []⟩] : List AgentTask),
        (∀ d ∈ t.dependencies,
          d ∈ [("a", TaskOutcome.fallback "boom")].map Prod.fst) →
        t.task_id ∈ [("a", TaskOutcome.fallback "boom")].map Prod.fst)) ∧
    (∃ t ∈ ([⟨"b", .user_interaction, []⟩] : List AgentTask),
      criticalType t.task_type = true ∧
        (fun _ : AgentTask => (Except.error "halt" : Except String String)) t
          = Except.error "halt") :=
  ⟨(handler_failure_policy (fun _ => .error "boom") [⟨"a", .execution, []⟩]).2
      [("a", TaskOutcome.fallback "boom")] rfl,
   (handler_failure_policy (fun _ => .error "halt")
      [⟨"b", .user_interaction, []⟩]).1 "halt" rfl⟩

/-- C4 counterexample: a one-task plan whose task depends on itself
deadlocks in the first iteration, and `execute_plan` returns the plain
successful empty results dict — exactly the value a successful run of the
empty plan returns.  The returned outcome therefore carries no deadlock
status flagging the results as partial, contrary to the claim: the deadlock
is only printed to the log (line 424) before the `break`. -/
theorem deadlock_outcome_is_unflagged :
    executePlan (fun _ => .ok "r")
        [⟨"a", .execution, ["a"]⟩] = some (.ok []) ∧
    executePlan (fun _ => .ok "r") [] = some (.ok []) :=
  ⟨rfl, rfl⟩

/-- C4 amended: whenever an iteration of the scheduling loop finds no ready
task while tasks remain incomplete, the loop stops dispatching and returns
exactly the results accumulated so far, as a plain successful value — with
no deadlock marker of any kind attached. -/
theorem deadlock_returns_partial_results
    (runTask : AgentTask → Except String String) (tasks : List AgentTask)
    (fuel : ℕ) (res : List (String × TaskOutcome)) (comp : List String)
    (h1 : comp.length < tasks.length) (h2 : readyTasks tasks comp = []) :
    execLoop runTask tasks (fuel + 1) res comp = some (.ok res) :=
  execLoop_succ_break runTask tasks fuel res comp h1 h2

/-- Witness for the amended C4 at a concrete mid-run state: one completed
task recorded, a second task cyclically depending on itself, no ready task;
the loop returns the one accumulated result unmarked. -/
theorem deadlock_returns_partial_results_witness :
    execLoop (fun _ => .ok "r")
        [⟨"a", .execution, []⟩, ⟨"b", .execution, ["b"]⟩] 1
        [("a", TaskOutcome.done "r")] ["a"] =
      some (.ok [("a", TaskOutcome.done "r")]) :=
  deadlock_returns_partial_results (fun _ => .ok "r")
    [⟨"a", .execution, []⟩, ⟨"b", .execution, ["b"]⟩] 0
    [("a", TaskOutcome.done "r")] ["a"] (by decide) (by decide)

/-- C1: contrary to the claim, with an API key configured and a non-empty
text list, `_get_embeddings` raises `NameError` on its very first batch —
whether the provider call succeeds or fails — because the accumulator name
`embeddings` is never initialized (lines 163 and 170 both use it unbound);
it does not substitute zero vectors for a failed batch and continue.  Only
the degraded no-API-key path returns one zero vector per input text. -/
theorem get_embeddings_raises_name_error :
    (∀ (k : String) (provider : List String → Except String (List Vec))
      (texts : List String), k ≠ "" → texts ≠ [] →
      getEmbeddings (some k) provider texts = .error nameErrorMsg) ∧
    (∀ (provider : List String → Except String (List Vec))
      (texts : List String),
      getEmbeddings none provider texts = .ok (texts.map fun _ => zeroVec)) := by
  constructor
  · intro k provider texts hk ht
    simp only [getEmbeddings]
    rw [if_neg hk]
    have hvalid : texts.map validateText ≠ [] := by
      simpa using ht
    rw [if_neg hvalid]
    unfold batchStep
    cases provider ((texts.map validateText).take
        (batchSize (texts.map validateText).length)) <;> rfl
  · intro provider texts
    rfl

/-- Witness for C1: a single valid text with a key present raises the
`NameError` even under a provider that would answer the batch correctly. -/
theorem get_embeddings_raises_name_error_witness :
    getEmbeddings (some "sk-test")
        (fun b => .ok (b.map fun _ => zeroVec)) ["hello world"] =
      .error nameErrorMsg :=
  get_embeddings_raises_name_error.1 "sk-test"
    (fun b => .ok (b.map fun _ => zeroVec)) ["hello world"]
    (by decide) (by decide)

/-- C3: at the failing input — a cache created 36 hours (129600 seconds)
before now, with both cache files present and a non-empty table map —
`_load_cached_embeddings` loads the cache and returns `True`, although the
claim (and the code's own comment, "less than 1 day old") requires the
cache to be treated as absent; the test `(now - cache_time).days > 1` only
rejects caches at least 2 full days old.  The second conjunct characterizes
the code's actual behavior: the cache loads iff both files exist, the
floored elapsed-day count is at most 1, and the loaded table map is
non-empty. -/
theorem load_cached_embeddings_accepts_36h_cache :
    loadCachedEmbeddings 129600 ⟨true, true, 0, 5, 40⟩ = true ∧
    (∀ (now : ℤ) (c : CacheState),
      loadCachedEmbeddings now c = true ↔
        c.embFileExists = true ∧ c.metaFileExists = true ∧
        (now - c.createdAt).fdiv 86400 ≤ 1 ∧ 0 < c.tableCount) := by
  constructor
  · decide
  · intro now c
    unfold loadCachedEmbeddings
    by_cases h1 : c.embFileExists ∧ c.metaFileExists
    · rw [if_neg (not_not_intro h1)]
      by_cases h2 : (now - c.createdAt).fdiv 86400 > 1
      · rw [if_pos h2]
        simp only [Bool.false_eq_true, false_iff]
        intro hcon
        exact absurd hcon.2.2.1 (not_le.mpr h2)
      · rw [if_neg h2]
        simp only [decide_eq_true_eq]
        constructor
        · intro h3
          exact ⟨h1.1, h1.2, not_lt.mp h2, h3⟩
        · intro h3
          exact h3.2.2.2
    · rw [if_pos h1]
      simp only [Bool.false_eq_true, false_iff]
      intro hcon
      exact h1 ⟨hcon.1, hcon.2.1⟩

/-- C5: the prioritized, truncated table list of lines 199-226 is computed
and then discarded by the re-fetch at line 232, so the tables actually
processed are always the full catalog in catalog order.  At the failing
input — a 51-table catalog with `important_tables = ["t50"]` and
`max_tables = 10` — the claim demands the 10-element prioritized list
headed by "t50", but the code processes all 51 tables. -/
theorem initialize_processes_full_catalog :
    (∀ (allT : List String) (imp : Option (List String)) (mx : Option ℕ),
      processedTables allT imp mx = allT) ∧
    (prioritizedTables demoCatalog (some ["t50"]) (some 10)).length = 10 ∧
    (prioritizedTables demoCatalog (some ["t50"]) (some 10)).head? =
      some "t50" ∧
    demoCatalog.length = 51 ∧
    processedTables demoCatalog (some ["t50"]) (some 10) ≠
      prioritizedTables demoCatalog (some ["t50"]) (some 10) := by
  refine ⟨fun allT imp mx => rfl, ?_, ?_, ?_, ?_⟩
  · decide
  · decide
  · decide
  · decide

theorem tm_le_trans (a b c : TableMatch)
    (h1 : decide (b.similarity_score ≤ a.similarity_score) = true)
    (h2 : decide (c.similarity_score ≤ b.similarity_score) = true) :
    decide (c.similarity_score ≤ a.similarity_score) = true := by
  simp only [decide_eq_true_eq] at *
  exact le_trans h2 h1

theorem tm_le_total (a b : TableMatch) :
    (decide (b.similarity_score ≤ a.similarity_score) ||
      decide (a.similarity_score ≤ b.similarity_score)) = true := by
  simp only [Bool.or_eq_true, decide_eq_true_eq]
  exact le_total _ _

/-- C7: cosine similarity of identical vectors of non-zero norm is 1, of
orthogonal vectors is 0, and 0 whenever either operand has zero norm; and,
on a non-empty table index, given the query embedding, `find_similar_tables`
returns exactly the cached tables whose similarity reaches the threshold —
as a descending-sorted permutation of that candidate set truncated to the
top K — with each entry carrying its similarity and the confidence equal to
the similarity clamped to [0, 1]. -/
theorem find_similar_tables_spec :
    (∀ a : Vec, dot a a ≠ 0 → cosineSimilarity a a = 1) ∧
    (∀ a b : Vec, dot a b = 0 → cosineSimilarity a b = 0) ∧
    (∀ a b : Vec, nrm a = 0 ∨ nrm b = 0 → cosineSimilarity a b = 0) ∧
    (∀ (tableEmb : List (String × Vec))
      (getEmb : List String → Except String (List Vec))
      (query : String) (top_k : ℕ) (threshold : ℝ) (q : Vec)
      (rest : List Vec),
      tableEmb ≠ [] → getEmb [query] = .ok (q :: rest) →
      ∃ l, findSimilarTables tableEmb getEmb query top_k threshold = .ok l ∧
        (∃ full : List TableMatch,
          full.Perm (tableEmb.filterMap fun nv =>
            if threshold ≤ cosineSimilarity q nv.2 then
              some ⟨nv.1, cosineSimilarity q nv.2, "vector_semantic",
                similarityToConfidence (cosineSimilarity q nv.2)⟩
            else none) ∧
          full.Pairwise
            (fun x y => y.similarity_score ≤ x.similarity_score) ∧
          l = full.take top_k) ∧
        l.Pairwise (fun x y => y.similarity_score ≤ x.similarity_score) ∧
        l.length ≤ top_k ∧
        ∀ e ∈ l, threshold ≤ e.similarity_score ∧
          e.confidence = max 0 (min 1 e.similarity_score) ∧
          e.matchType = "vector_semantic" ∧
          ∃ nv ∈ tableEmb, e.table_name = nv.1 ∧
            e.similarity_score = cosineSimilarity q nv.2) := by
  refine ⟨cosineSimilarity_self, cosineSimilarity_orth,
    cosineSimilarity_zero_norm, ?_⟩
  intro tableEmb getEmb query top_k threshold q rest hne hok
  have heq : findSimilarTables tableEmb getEmb query top_k threshold =
      .ok (((tableEmb.filterMap fun nv =>
        if threshold ≤ cosineSimilarity q nv.2 then
          some ⟨nv.1, cosineSimilarity q nv.2, "vector_semantic",
            similarityToConfidence (cosineSimilarity q nv.2)⟩
        else none).mergeSort fun x y =>
          decide (y.similarity_score ≤ x.similarity_score)).take top_k) := by
    simp only [findSimilarTables, hok]
    rw [if_neg hne]
  have hsorted : ((tableEmb.filterMap fun nv =>
      if threshold ≤ cosineSimilarity q nv.2 then
        some (TableMatch.mk nv.1 (cosineSimilarity q nv.2) "vector_semantic"
          (similarityToConfidence (cosineSimilarity q nv.2)))
      else none).mergeSort fun x y =>
        decide (y.similarity_score ≤ x.similarity_score)).Pairwise
      (fun x y => y.similarity_score ≤ x.similarity_score) := by
    have hs := List.sorted_mergeSort tm_le_trans tm_le_total
      (tableEmb.filterMap fun nv =>
        if threshold ≤ cosineSimilarity q nv.2 then
          some (TableMatch.mk nv.1 (cosineSimilarity q nv.2) "vector_semantic"
            (similarityToConfidence (cosineSimilarity q nv.2)))
        else none)
    exact hs.imp fun h => of_decide_eq_true h
  refine ⟨_, heq, ⟨_, List.mergeSort_perm _ _, hsorted, rfl⟩,
    hsorted.sublist (List.take_sublist _ _), ?_, ?_⟩
  · simpa using List.length_take_le top_k _
  · intro e he
    have hef : e ∈ (tableEmb.filterMap fun nv =>
        if threshold ≤ cosineSimilarity q nv.2 then
          some (TableMatch.mk nv.1 (cosineSimilarity q nv.2) "vector_semantic"
            (similarityToConfidence (cosineSimilarity q nv.2)))
        else none) := by
      have h1 := List.take_subset _ _ he
      exact (List.mergeSort_perm _ _).mem_iff.mp h1
    rcases List.mem_filterMap.mp hef with ⟨nv, hnv, hsome⟩
    by_cases hth : threshold ≤ cosineSimilarity q nv.2
    · rw [if_pos hth] at hsome
      injection hsome with hsome
      subst hsome
      exact ⟨hth, rfl, rfl, nv, hnv, rfl, rfl⟩
    · rw [if_neg hth] at hsome
      exact absurd hsome (by simp)

/-- Witness for C7 at concrete vectors and a one-table index: identical
non-zero vectors, orthogonal vectors, a zero-norm operand, and a search
over the index containing table "t". -/
theorem find_similar_tables_spec_witness :
    cosineSimilarity [1, 0] [1, 0] = 1 ∧
    cosineSimilarity [1, 0] [0, 1] = 0 ∧
    cosineSimilarity [0, 0] [1, 0] = 0 ∧
    (∃ l, findSimilarTables [("t", [1, 0])]
        (fun _ => .ok [[1, 0]]) "q" 5 (3 / 10) = .ok l ∧
      (∃ full : List TableMatch,
        full.Perm ([("t", ([1, 0] : Vec))].filterMap fun nv =>
          if (3 / 10 : ℝ) ≤ cosineSimilarity [1, 0] nv.2 then
            some ⟨nv.1, cosineSimilarity [1, 0] nv.2, "vector_semantic",
              similarityToConfidence (cosineSimilarity [1, 0] nv.2)⟩
          else none) ∧
        full.Pairwise
          (fun x y => y.similarity_score ≤ x.similarity_score) ∧
        l = full.take 5) ∧
      l.Pairwise (fun x y => y.similarity_score ≤ x.similarity_score) ∧
      l.length ≤ 5 ∧
      ∀ e ∈ l, (3 / 10 : ℝ) ≤ e.similarity_score ∧
        e.confidence = max 0 (min 1 e.similarity_score) ∧
        e.matchType = "vector_semantic" ∧
        ∃ nv ∈ [("t", ([1, 0] : Vec))], e.table_name = nv.1 ∧
          e.similarity_score = cosineSimilarity [1, 0] nv.2) :=
  ⟨find_similar_tables_spec.1 [1, 0] (by norm_num [dot]),
   find_similar_tables_spec.2.1 [1, 0] [0, 1] (by norm_num [dot]),
   find_similar_tables_spec.2.2.1 [0, 0] [1, 0]
     (Or.inl (by simp [nrm, dot])),
   find_similar_tables_spec.2.2.2 [("t", [1, 0])]
     (fun _ => .ok [[1, 0]]) "q" 5 (3 / 10) [1, 0] [] (by simp) rfl⟩

theorem cm_le_trans (a b c : ColumnMatch)
    (h1 : decide (b.similarity_score ≤ a.similarity_score) = true)
    (h2 : decide (c.similarity_score ≤ b.similarity_score) = true) :
    decide (c.similarity_score ≤ a.similarity_score) = true := by
  simp only [decide_eq_true_eq] at *
  exact le_trans h2 h1

theorem cm_le_total (a b : ColumnMatch) :
    (decide (b.similarity_score ≤ a.similarity_score) ||
      decide (a.similarity_score ≤ b.similarity_score)) = true := by
  simp only [Bool.or_eq_true, decide_eq_true_eq]
  exact le_total _ _

/-- C10: unlike the table search, the column search applies no similarity
threshold: on a non-empty column index, every column in scope (all cached
columns, or the named table's columns) contributes exactly one candidate
regardless of its similarity, so the top-k result can contain entries of
zero or negative similarity (a concrete negative-similarity output is
exhibited); and on an empty column (resp. table) index the search returns
the empty list for every provider behavior — the provider is never
consulted — without raising. -/
theorem find_relevant_columns_no_threshold :
    (∀ (getEmb : List String → Except String (List Vec)) (query : String)
      (tn : Option String) (k : ℕ),
      findRelevantColumns [] getEmb query tn k = .ok []) ∧
    (∀ (getEmb : List String → Except String (List Vec)) (query : String)
      (k : ℕ) (th : ℝ), findSimilarTables [] getEmb query k th = .ok []) ∧
    (∀ (colEmb : List (String × Vec))
      (getEmb : List String → Except String (List Vec))
      (query : String) (tn : Option String) (top_k : ℕ) (q : Vec)
      (rest : List Vec),
      colEmb ≠ [] → getEmb [query] = .ok (q :: rest) →
      ∃ l, findRelevantColumns colEmb getEmb query tn top_k = .ok l ∧
        ∃ full : List ColumnMatch,
          full.Perm ((scopedColumns colEmb tn).map fun kv =>
            ColumnMatch.mk (splitKey kv.1).2 (splitKey kv.1).1
              (cosineSimilarity q kv.2)
              (similarityToConfidence (cosineSimilarity q kv.2))) ∧
          full.length = (scopedColumns colEmb tn).length ∧
          (∀ kv ∈ scopedColumns colEmb tn,
            ColumnMatch.mk (splitKey kv.1).2 (splitKey kv.1).1
              (cosineSimilarity q kv.2)
              (similarityToConfidence (cosineSimilarity q kv.2)) ∈ full) ∧
          full.Pairwise
            (fun x y => y.similarity_score ≤ x.similarity_score) ∧
          l = full.take top_k) ∧
    (∃ l e, findRelevantColumns [("T.c", [-1, 0])]
        (fun _ => .ok [[1, 0]]) "q" none 10 = .ok l ∧
      e ∈ l ∧ e.similarity_score < 0) := by
  have hcols_empty : ∀ (getEmb : List String → Except String (List Vec))
      (query : String) (tn : Option String) (k : ℕ),
      findRelevantColumns [] getEmb query tn k = .ok [] := by
    intro getEmb query tn k
    simp [findRelevantColumns]
  refine ⟨hcols_empty, ?_, ?_, ?_⟩
  · intro getEmb query k th
    simp [findSimilarTables]
  · intro colEmb getEmb query tn top_k q rest hne hok
    have heq : findRelevantColumns colEmb getEmb query tn top_k =
        .ok ((((scopedColumns colEmb tn).map fun kv =>
          ColumnMatch.mk (splitKey kv.1).2 (splitKey kv.1).1
            (cosineSimilarity q kv.2)
            (similarityToConfidence (cosineSimilarity q kv.2))).mergeSort
          fun x y =>
            decide (y.similarity_score ≤ x.similarity_score)).take top_k) := by
      simp only [findRelevantColumns, hok]
      rw [if_neg hne]
    refine ⟨_, heq, _, List.mergeSort_perm _ _, ?_, ?_, ?_, rfl⟩
    · rw [List.length_mergeSort, List.length_map]
    · intro kv hkv
      exact (List.mergeSort_perm _ _).mem_iff.mpr
        (List.mem_map_of_mem _ hkv)
    · have hs := List.sorted_mergeSort cm_le_trans cm_le_total
        ((scopedColumns colEmb tn).map fun kv =>
          ColumnMatch.mk (splitKey kv.1).2 (splitKey kv.1).1
            (cosineSimilarity q kv.2)
            (similarityToConfidence (cosineSimilarity q kv.2)))
      exact hs.imp fun h => of_decide_eq_true h
  · have hd : dot [(1 : ℝ), 0] [-1, 0] = -1 := by norm_num [dot]
    have hna : nrm [(1 : ℝ), 0] = 1 := by
      have h1 : dot [(1 : ℝ), 0] [1, 0] = 1 := by norm_num [dot]
      rw [nrm, h1, Real.sqrt_one]
    have hnb : nrm [(-1 : ℝ), 0] = 1 := by
      have h1 : dot [(-1 : ℝ), 0] [-1, 0] = 1 := by norm_num [dot]
      rw [nrm, h1, Real.sqrt_one]
    have hc : cosineSimilarity [1, 0] [-1, 0] = -1 := by
      rw [cosineSimilarity, if_neg (by rw [hna, hnb]; norm_num), hd, hna, hnb]
      norm_num
    have heq : findRelevantColumns [("T.c", [-1, 0])]
        (fun _ => .ok [[1, 0]]) "q" none 10 =
        .ok [ColumnMatch.mk "c" "T" (cosineSimilarity [1, 0] [-1, 0])
          (similarityToConfidence (cosineSimilarity [1, 0] [-1, 0]))] := by
      simp only [findRelevantColumns]
      rw [if_neg (by simp)]
      simp [scopedColumns, splitKey, List.mergeSort_singleton]
      decide
    refine ⟨_, ColumnMatch.mk "c" "T" (cosineSimilarity [1, 0] [-1, 0])
      (similarityToConfidence (cosineSimilarity [1, 0] [-1, 0])),
      heq, by simp, ?_⟩
    show cosineSimilarity [1, 0] [-1, 0] < 0
    rw [hc]
    norm_num

/-- Witness for C10 at a one-column index: the candidate set is the full
scope with no threshold applied. -/
theorem find_relevant_columns_no_threshold_witness :
    ∃ l, findRelevantColumns [("T.c", [1, 0])]
        (fun _ => .ok [[1, 0]]) "q" none 3 = .ok l ∧
      ∃ full : List ColumnMatch,
        full.Perm ((scopedColumns [("T.c", ([1, 0] : Vec))] none).map fun kv =>
          ColumnMatch.mk (splitKey kv.1).2 (splitKey kv.1).1
            (cosineSimilarity [1, 0] kv.2)
            (similarityToConfidence (cosineSimilarity [1, 0] kv.2))) ∧
        full.length = (scopedColumns [("T.c", ([1, 0] : Vec))] none).length ∧
        (∀ kv ∈ scopedColumns [("T.c", ([1, 0] : Vec))] none,
          ColumnMatch.mk (splitKey kv.1).2 (splitKey kv.1).1
            (cosineSimilarity [1, 0] kv.2)
            (similarityToConfidence (cosineSimilarity [1, 0] kv.2)) ∈ full) ∧
        full.Pairwise (fun x y => y.similarity_score ≤ x.similarity_score) ∧
        l = full.take 3 :=
  find_relevant_columns_no_threshold.2.2.1 [("T.c", [1, 0])]
    (fun _ => .ok [[1, 0]]) "q" none 3 [1, 0] [] (by simp) rfl
